import Mathlib

/-!
Verification development for the `common-framework` REST query-compilation
core.  The definitions below shallowly embed `common/api/viewsets.py`
(`CommonModelViewSet.get_queryset` and its helper `do_filter`) together with
`str_to_bool` from `common/utils.py`.  Query parameters are association lists
of strings, the underlying ORM queryset is embedded as a symbolic plan AST,
and the process-wide Django cache is an association list from storage keys to
(parameter bundle, optional absolute expiry time).

Constants and helpers that live in `common/api/utils.py` (not part of the
provided sources) are modelled from the specification and are marked as such
in their doc comments.
-/

/-! ## Character-level string helpers

The Python code manipulates strings with `split`, `replace`, `lower`,
`startswith`/`endswith` and slicing.  These are re-implemented here on
`String.data` (lists of characters) so that every operation reduces inside
the kernel. -/

/-- ASCII lower-casing of a single character, as Python `str.lower` does for
the ASCII range used by the recognized boolean spellings. -/
def charLower (c : Char) : Char :=
  if 65 ≤ c.toNat ∧ c.toNat ≤ 90 then Char.ofNat (c.toNat + 32) else c

/-- String lower-casing (`value.lower()` in the source). -/
def strLower (s : String) : String := String.mk (s.data.map charLower)

/-- Split a character list on the separator `,` (Python `str.split(',')`).
Splitting the empty string yields one empty chunk, as in Python. -/
def splitCommaChars : List Char → List (List Char)
  | [] => [[]]
  | c :: rest =>
    if c = ',' then [] :: splitCommaChars rest
    else
      match splitCommaChars rest with
      | [] => [[c]]
      | h :: t => (c :: h) :: t

/-- Python `s.split(',')` from the source. -/
def splitOnC (s : String) : List String := (splitCommaChars s.data).map String.mk

/-- Split a character list on the two-character separator `__`
(Python `str.split('__')`, greedy from the left). -/
def splitUUChars : List Char → List (List Char)
  | [] => [[]]
  | '_' :: '_' :: rest => [] :: splitUUChars rest
  | c :: rest =>
    match splitUUChars rest with
    | [] => [[c]]
    | h :: t => (c :: h) :: t

/-- Python `field.split('__')` from the source. -/
def splitOnUU (s : String) : List String := (splitUUChars s.data).map String.mk

/-- Python `'__'.join(parts)` from the source. -/
def joinUU : List String → String
  | [] => ""
  | [x] => x
  | x :: xs => x ++ "__" ++ joinUU xs

/-- Python `fields.replace('.', '__')` from the source (the pattern is a single
character, so a character-wise replacement is faithful). -/
def replaceDots (s : String) : String :=
  String.mk ((s.data.map (fun c => if c = '.' then ['_', '_'] else [c])).flatten)

/-- Python `str.startswith(c)` for a one-character pattern. -/
def startsWithChar (s : String) (c : Char) : Bool :=
  match s.data with
  | [] => false
  | c' :: _ => c' = c

/-- Python slicing `s[1:]`. -/
def dropFirst (s : String) : String := String.mk s.data.tail

/-- Python `int(s)` restricted to optionally-signed decimal literals;
non-numeric strings yield `none` (Python raises `ValueError`). -/
def intOfString (s : String) : Option Int :=
  let digits : List Char → Option Nat := fun cs =>
    if cs.isEmpty then none
    else cs.foldl (fun acc c =>
      acc.bind (fun n =>
        if 48 ≤ c.toNat ∧ c.toNat ≤ 57 then some (n * 10 + (c.toNat - 48)) else none))
      (some 0)
  match s.data with
  | '-' :: rest => (digits rest).map (fun n => -(n : Int))
  | l => (digits l).map (fun n => (n : Int))

/-! ## `str_to_bool` (from `common/utils.py`) -/

/-- Values recognized as true (`TRUE_VALUES` in `common/utils.py`; the
translated spellings are taken at their French literals). -/
def TRUE_VALUES : List String := ["true", "yes", "y", "1", "vrai", "oui", "o"]

/-- Values recognized as false (`FALSE_VALUES` in `common/utils.py`). -/
def FALSE_VALUES : List String := ["false", "no", "n", "0", "faux", "non", "n"]

/-- The function `str_to_bool` from `common/utils.py`: three-valued boolean parsing.
The input is the raw query-string value when present (`none` models Python
`None`; the `value is True / value is False` short-circuit concerns Python
booleans, which never reach this code path from a query string). -/
def str_to_bool : Option String → Option Bool
  | none => none
  | some v =>
    let l := strLower v
    if (TRUE_VALUES ++ FALSE_VALUES).contains l then some (TRUE_VALUES.contains l)
    else none

example : str_to_bool (some "TRUE") = some true := by decide
example : str_to_bool (some "2") = none := by decide
example : str_to_bool (some "No") = some false := by decide
example : str_to_bool none = none := by decide

/-! ## Data model -/

/-- A parameter bundle: the request's query string as an ordered mapping
from parameter name to raw string value (`request.query_params.dict()`).
Keys are assumed unique, as produced by `dict()`. -/
abbrev Params := List (String × String)

/-- A stored record of the base collection, used to give the scalar
aggregate terminal its actual computed values: a mapping from field path to
raw stored value. -/
abbrev Rec := List (String × String)

/-- A coerced filter value: either a literal string or a same-record
field-reference (`F(...)` in the source, produced from a bracketed value). -/
inductive QueryVal where
  | lit (s : String)
  | fref (f : String)
deriving DecidableEq, Repr

/-- Supported aggregate functions.  The registry itself (`AGGREGATES` in
`common/api/utils.py`) is not part of the provided sources, see below. -/
inductive AggFn where
  | sum
  | count
  | avg
  | minF
  | maxF
deriving DecidableEq, Repr

/-- The symbolic retrieval plan: the chain of queryset transformations that
`get_queryset` composes.  Each constructor mirrors one Django queryset
method used by the source. -/
inductive Plan where
  /-- the unmodified base collection (`super().get_queryset()`) -/
  | base
  /-- `queryset.select_related(None).prefetch_related(None)` -/
  | selectRelatedNone (p : Plan)
  /-- `queryset.select_related(*relateds)` -/
  | selectRelated (rels : List String) (p : Plan)
  /-- `queryset.only(*field_names)` -/
  | only (fields : List String) (p : Plan)
  /-- `queryset.prefetch_related(*lookups_metadatas)` -/
  | prefetchMeta (lookups : List String) (p : Plan)
  /-- `queryset.filter(**filters)` -/
  | filter (clauses : List (String × QueryVal)) (p : Plan)
  /-- `queryset.exclude(**excludes)` -/
  | exclude (clauses : List (String × QueryVal)) (p : Plan)
  /-- `queryset.filter(parse_filters(others))`: the free-text filters
  predicate (its grammar lives in `common/api/utils.py`, outside src) -/
  | filterExpr (raw : String) (p : Plan)
  /-- `queryset.values(*group_by.split(','))` -/
  | values (fields : List String) (p : Plan)
  /-- `queryset.annotate(**aggregations)` -/
  | annotate (aggs : List (String × AggFn × String)) (p : Plan)
  /-- `queryset.distinct(*distincts)` -/
  | distinct (cols : List String) (p : Plan)
  /-- `queryset.order_by(*order_by.split(','))` -/
  | orderBy (fields : List String) (p : Plan)
deriving DecidableEq, Repr

/-- The accumulated `options` record attached to the pagination metadata:
which optional transforms were attempted and whether each succeeded, plus
the cache observables set by the cache-resolution block. -/
structure Options where
  aggregates : Option Bool := none
  distinct : Option Bool := none
  filters : Option Bool := none
  order_by : Option Bool := none
  aggregates_error : Option String := none
  distinct_error : Option String := none
  filters_error : Option String := none
  order_by_error : Option String := none
  /-- `options['cache_expires']`: absolute expiry instant of the stored bundle -/
  cache_expires : Option Int := none
  /-- `options['cache_data']`: the parameter subset written to the cache -/
  cache_data : Option Params := none
deriving DecidableEq, Repr

/-- The process-wide cache: storage key to (stored bundle, optional absolute
expiry instant; `none` means no expiry). -/
abbrev Cache := List (String × (Params × Option Int))

/-- Per-request viewset state: `self.queryset_error`, recorded when a
strict-mode `ValidationError` aborts a compilation. -/
structure ViewState where
  queryset_error : Option String := none
deriving DecidableEq, Repr

/-- The outcome of `get_queryset`. -/
inductive GetResult where
  /-- an executable plan together with the accumulated options -/
  | plan (p : Plan) (opts : Options)
  /-- the terminal scalar aggregate map (`queryset.aggregate(...)`) -/
  | scalar (vals : List (String × Int))
  /-- a strict-mode `ValidationError` with its stage tag and message -/
  | validationError (tag : String) (msg : String)
  /-- an unhandled Python exception escaping `get_queryset` -/
  | fault (msg : String)
  /-- the bare `return` taken when `self.queryset_error` is already set -/
  | noneResult
deriving DecidableEq, Repr

/-- Request-independent context: the schema of resolvable field paths, the
primary-key name, whether a paginator with `additional_data` is configured,
the viewset's optional `metadatas` attribute, `settings.DEBUG`, the records
of the base collection, and the current time. -/
structure Ctx where
  schema : List String
  pk : String
  paginator : Bool
  metadatas : Option (List String)
  debug : Bool
  records : List Rec
  now : Int
deriving Repr

/-! ## Constants modelled from the spec

`common/api/utils.py` is imported by `viewsets.py` but is not among the
provided sources; the definitions in this section are modelled from the
specification text. -/

/-- Modelled from the spec: the `AGGREGATES` registry of
`common/api/utils.py` maps one reserved parameter name to each aggregate
function ("sum, count, average, min, max, etc."); iteration order is the
registry's insertion order. -/
def AGGREGATES : List (String × AggFn) :=
  [("sum", .sum), ("count", .count), ("avg", .avg), ("min", .minF), ("max", .maxF)]

/-- Modelled from the spec: `RESERVED_QUERY_PARAMS` of
`common/api/utils.py`; §6 lists the exact reserved tokens, plus one
parameter name per registered aggregate function. -/
def RESERVED_QUERY_PARAMS : List String :=
  ["fields", "simple", "all", "meta", "cache", "timeout", "filters",
   "order_by", "distinct", "group_by", "silent", "display"] ++ AGGREGATES.map (·.1)

/-- Modelled from the spec: `CACHE_PREFIX` of `common/api/utils.py`, the
fixed prefix concatenated with the caller-chosen token to form the storage
key. -/
def CACHE_KEY_HEAD : String := "api:"

/-- Modelled from the spec: `CACHE_TIMEOUT` of `common/api/utils.py`, the
default time-to-live constant (in seconds) used when no `timeout` parameter
is given. -/
def CACHE_TIMEOUT : Int := 86400

/-- Modelled from the spec: `url_value` of `common/api/utils.py` coerces a
raw value by the declared type of the target field and keeps a bracketed
field-reference as a same-record comparison.  Typed coercion depends on the
external schema and is modelled as the identity on the embedded value,
preserving the literal / field-reference distinction. -/
def url_value (_key : String) (v : QueryVal) : QueryVal := v

/-- The `default_reserved_query_params` list: `['format']` plus the paginator's page
and page-size parameter names when a paginator is configured. -/
def defaultReserved (ctx : Ctx) : List String :=
  ["format"] ++ (if ctx.paginator then ["page", "page_size"] else [])

/-- The full `reserved_query_params = default_reserved_query_params + RESERVED_QUERY_PARAMS`. -/
def reservedParams (ctx : Ctx) : List String :=
  defaultReserved ctx ++ RESERVED_QUERY_PARAMS

/-! ## Cache directory -/

/-- Django `cache.get(key, default)` at a given instant: the stored bundle when the
entry exists and has not expired, `{}` otherwise. -/
def cacheGet (c : Cache) (key : String) (now : Int) : Params :=
  match List.lookup key c with
  | none => []
  | some (ps, none) => ps
  | some (ps, some e) => if now < e then ps else []

/-- Django `cache.set(key, params, timeout)`: last write wins (the newest entry
shadows any older one for the same key). -/
def cacheSet (c : Cache) (key : String) (ps : Params) (expires : Option Int) : Cache :=
  (key, (ps, expires)) :: c

/-- Python `dict` update semantics: `new = {}; new.update(base);
new.update(overlay)` — overlaid values replace in place, new keys are
appended in overlay order. -/
def dictUpdate (base overlay : Params) : Params :=
  base.map (fun kv => (kv.1, (List.lookup kv.1 overlay).getD kv.2)) ++
    overlay.filter (fun kv => (List.lookup kv.1 base).isNone)

/-- Outcome of the cache-resolution block (lines 112-136 of
`viewsets.py`): either an unhandled Python exception, or the merged
parameter bundle, the initial options, and the updated cache. -/
inductive CacheOut where
  | fault (msg : String) (cache : Cache)
  | ok (merged : Params) (opts : Options) (cache : Cache)
deriving Repr

/-- The cache-resolution block: pop `cache`; when the token is truthy, merge
the stored bundle under the incoming parameters, re-store the merge minus
`default_reserved_query_params` (popping `timeout` for the ttl), and record
the cache observables.  `int(...)` failure and
`timedelta(seconds=None)` (a zero ttl) surface as faults, the latter after
the entry was already stored without expiry. -/
def cacheStage (ctx : Ctx) (cache : Cache) (qparams : Params) : CacheOut :=
  let params1 := qparams.filter (fun kv => kv.1 != "cache")
  match List.lookup "cache" qparams with
  | none => .ok params1 {} cache
  | some tok =>
    if tok = "" then .ok params1 {} cache
    else
      let key := CACHE_KEY_HEAD ++ tok
      let cacheParams := cacheGet cache key ctx.now
      let merged := dictUpdate cacheParams params1
      let newCacheParams := merged.filter (fun kv => !(defaultReserved ctx).contains kv.1)
      if newCacheParams.isEmpty then
        .ok merged { cache_data := some newCacheParams } cache
      else
        match (match List.lookup "timeout" merged with
               | none => some CACHE_TIMEOUT
               | some s => intOfString s) with
        | none => .fault "ValueError: invalid literal for int" cache
        | some n =>
          let merged2 := merged.filter (fun kv => kv.1 != "timeout")
          let cacheTimeout : Option Int := if n = 0 then none else some n
          let cache2 := cacheSet cache key newCacheParams (cacheTimeout.map (ctx.now + ·))
          match cacheTimeout with
          | none => .fault "TypeError: unsupported type for timedelta seconds component" cache2
          | some n' =>
            .ok merged2
              { cache_expires := some (ctx.now + n'), cache_data := some newCacheParams }
              cache2

/-! ## Filter clause stage (`do_filter`) -/

/-- Line 188-189 of `viewsets.py`: a value wrapped in brackets becomes a
same-record field-reference (`F(value[1:-1])`), any other value stays a
literal. -/
def toQueryVal (v : String) : QueryVal :=
  match v.data with
  | [] => .lit v
  | c :: rest =>
    if c = '[' ∧ rest.getLast? = some ']' then .fref (String.mk rest.dropLast)
    else .lit v

/-- The clause-collection loop of `do_filter`: strip a leading `@`, route a
leading `-` to the exclude set, coerce through `url_value`, preserving
parameter order. -/
def buildFilters (rs : List String) : Params → List (String × QueryVal) × List (String × QueryVal)
  | [] => ([], [])
  | (k, v) :: rest =>
    let acc := buildFilters rs rest
    let qv := toQueryVal v
    if rs.contains k then acc
    else
      let k1 := if startsWithChar k '@' then dropFirst k else k
      if startsWithChar k1 '-' then
        (acc.1, (dropFirst k1, url_value (dropFirst k1) qv) :: acc.2)
      else ((k1, url_value k1 qv) :: acc.1, acc.2)

/-- A clause set is accepted by the ORM when every lookup path resolves
against the schema (`queryset.filter` raises `FieldError` otherwise). -/
def clausesValid (ctx : Ctx) (cs : List (String × QueryVal)) : Bool :=
  cs.all (fun c => ctx.schema.contains c.1)

/-- The `except` clause of `do_filter`: silent mode records the failure and
keeps the collection reached so far, strict mode raises a
`ValidationError` tagged `filters`. -/
def filterFail (silent dbg : Bool) (qs : Plan) (opts : Options) (msg : String) :
    Except (String × String) (Plan × Options) :=
  if silent then
    .ok (qs, { opts with filters := some false,
                         filters_error := if dbg then some msg else none })
  else .error ("filters", msg)

/-- The helper `do_filter` from `viewsets.py`: apply include clauses, exclude clauses
and the free-text `filters` predicate in order; a failure after a partial
application keeps the transformations already applied (in silent mode) —
the `queryset` local already holds them when the exception is caught.
`parse_filters` lives in `common/api/utils.py` (outside src) and is
modelled as always producing a predicate node. -/
def doFilterStage (ctx : Ctx) (rs : List String) (silent dbg : Bool) (ps : Params)
    (qs : Plan) (opts : Options) : Except (String × String) (Plan × Options) :=
  let fe := buildFilters rs ps
  let fs := fe.1
  let es := fe.2
  if !fs.isEmpty && !clausesValid ctx fs then
    filterFail silent dbg qs opts "invalid filter field"
  else
    let q1 := if fs.isEmpty then qs else .filter fs qs
    if !es.isEmpty && !clausesValid ctx es then
      filterFail silent dbg q1 opts "invalid exclude field"
    else
      let q2 := if es.isEmpty then q1 else .exclude es q1
      match List.lookup "filters" ps with
      | some ft =>
        if ft = "" then
          if fs.isEmpty && es.isEmpty then .ok (q2, opts)
          else .ok (q2, { opts with filters := some true })
        else .ok (.filterExpr ft q2, { opts with filters := some true })
      | none =>
        if fs.isEmpty && es.isEmpty then .ok (q2, opts)
        else .ok (q2, { opts with filters := some true })

/-! ## Aggregation stage -/

/-- The aggregation-collection loop (lines 216-221): for each registered
aggregate parameter, one spec per comma-separated field, with result alias
`field + '_' + aggregate`. -/
def buildAggs (ps : Params) : List (String × AggFn × String) :=
  (AGGREGATES.map (fun ag =>
    (splitOnC ((List.lookup ag.1 ps).getD "")).filterMap (fun f =>
      if f = "" then none else some (f ++ "_" ++ ag.1, ag.2, f)))).flatten

/-- Whether a record matches one filter clause: literal equality on the
stored value, or equality of two fields of the same record for a
field-reference. -/
def matchesClause (r : Rec) (c : String × QueryVal) : Bool :=
  match c.2 with
  | .lit s => List.lookup c.1 r == some s
  | .fref f =>
    match List.lookup c.1 r, List.lookup f r with
    | some a, some b => a == b
    | _, _ => false

/-- Row-set semantics of a plan over the base records, used to give the
scalar aggregate terminal its computed values.  Projection, prefetch and
ordering nodes do not change row membership; `filter` keeps rows matching
every clause and `exclude` removes them (Django conjunction semantics);
the free-text predicate of `filterExpr` is external (`parse_filters` is
outside src) and is row-preserving in this model. -/
def runPlan (ctx : Ctx) : Plan → List Rec
  | .base => ctx.records
  | .selectRelatedNone p => runPlan ctx p
  | .selectRelated _ p => runPlan ctx p
  | .only _ p => runPlan ctx p
  | .prefetchMeta _ p => runPlan ctx p
  | .filter cs p => (runPlan ctx p).filter (fun r => cs.all (matchesClause r))
  | .exclude cs p => (runPlan ctx p).filter (fun r => !cs.all (matchesClause r))
  | .filterExpr _ p => runPlan ctx p
  | .values _ p => runPlan ctx p
  | .annotate _ p => runPlan ctx p
  | .distinct _ p => runPlan ctx p
  | .orderBy _ p => runPlan ctx p

/-- The numeric values of a field across records (rows whose value does not
parse as an integer are ignored; the concrete claims use integer fields). -/
def fieldInts (f : String) (recs : List Rec) : List Int :=
  recs.filterMap (fun r => (List.lookup f r).bind intOfString)

/-- Compute one aggregate function over the records. -/
def computeAgg : AggFn → String → List Rec → Int
  | .sum, f, recs => (fieldInts f recs).foldl (· + ·) 0
  | .count, f, recs => (recs.filterMap (List.lookup f)).length
  | .avg, f, recs =>
    let vs := fieldInts f recs
    if vs.length = 0 then 0 else vs.foldl (· + ·) 0 / vs.length
  | .minF, f, recs =>
    match fieldInts f recs with
    | [] => 0
    | v :: vs => vs.foldl min v
  | .maxF, f, recs =>
    match fieldInts f recs with
    | [] => 0
    | v :: vs => vs.foldl max v

/-- Django `queryset.aggregate(**aggregations)`: the scalar map from alias to
computed value. -/
def computeAggs (aggs : List (String × AggFn × String)) (recs : List Rec) :
    List (String × Int) :=
  aggs.map (fun a => (a.1, computeAgg a.2.1 a.2.2 recs))

/-- Outcome of the aggregation block (lines 214-239). -/
inductive AggOut where
  | err (tag msg : String)
  | terminal (vals : List (String × Int))
  | next (qs : Plan) (opts : Options)
deriving Repr

/-- The `elif aggregations:` terminal: apply `do_filter` first, then return
the scalar aggregate map.  A strict-mode filter error raised inside this
`try` block is re-tagged `aggregates` by the surrounding `except`; an
aggregate over an unresolvable field fails the same way (silently recording
`aggregates = false` and continuing with the already-filtered collection in
silent mode). -/
def aggTerminal (ctx : Ctx) (rs : List String) (silent dbg : Bool) (ps : Params)
    (qs : Plan) (opts : Options) (aggs : List (String × AggFn × String)) : AggOut :=
  if aggs.isEmpty then .next qs opts
  else
    match doFilterStage ctx rs silent dbg ps qs opts with
    | .error tm => .err "aggregates" (tm.1 ++ ": " ++ tm.2)
    | .ok (q1, o1) =>
      if aggs.all (fun a => ctx.schema.contains a.2.2) then
        .terminal (computeAggs aggs (runPlan ctx q1))
      else if silent then
        .next q1 { o1 with aggregates := some false,
                           aggregates_error := if dbg then some "invalid aggregate field" else none }
      else .err "aggregates" "invalid aggregate field"

/-- The aggregation block: a truthy `group_by` projects onto the grouping
fields and annotates the aggregates (or reduces to distinct combinations
when there are none) and compilation continues; aggregates without
`group_by` take the pre-filtered scalar terminal. -/
def aggStage (ctx : Ctx) (rs : List String) (silent dbg : Bool) (ps : Params)
    (qs : Plan) (opts : Options) : AggOut :=
  let aggs := buildAggs ps
  match List.lookup "group_by" ps with
  | some g =>
    if g = "" then aggTerminal ctx rs silent dbg ps qs opts aggs
    else
      let q1 := Plan.values (splitOnC g) qs
      let q2 := if aggs.isEmpty then Plan.distinct [] q1 else Plan.annotate aggs q1
      .next q2 { opts with aggregates := some true }
  | none => aggTerminal ctx rs silent dbg ps qs opts aggs

/-! ## Ordering, distinct, projection pre-pass -/

/-- Ordering field validity: `str(_queryset.query)` forces SQL generation,
which fails when a field (after stripping a leading `-` direction marker)
does not resolve against the schema. -/
def stripNeg (f : String) : String :=
  if startsWithChar f '-' then dropFirst f else f

/-- The ordering stage (lines 244-259): apply the comma-split ordering and
force evaluation; on a malformed field, silent mode records
`order_by = false` and keeps the pre-ordering collection, strict mode raises
a `ValidationError` tagged `order_by`. -/
def orderStage (ctx : Ctx) (silent dbg : Bool) (ps : Params) (qs : Plan)
    (opts : Options) : Except (String × String) (Plan × Options) :=
  match List.lookup "order_by" ps with
  | none => .ok (qs, opts)
  | some ob =>
    if ob = "" then .ok (qs, opts)
    else
      let flds := splitOnC ob
      if flds.all (fun f => ctx.schema.contains (stripNeg f)) then
        .ok (.orderBy flds qs, { opts with order_by := some true })
      else if silent then
        .ok (qs, { opts with order_by := some false,
                             order_by_error := if dbg then some "invalid order_by field" else none })
      else .error ("order_by", "invalid order_by field")

/-- The distinct stage (lines 261-277): a value that parses as a boolean
gives a bare distinct, anything else a column-restricted distinct on the
comma-split columns.  `queryset.distinct(*cols)` raises nothing at
composition time, so this stage cannot fail in the plan model. -/
def distinctStage (ps : Params) (qs : Plan) (opts : Options) : Plan × Options :=
  match List.lookup "distinct" ps with
  | none => (qs, opts)
  | some d =>
    if d = "" then (qs, opts)
    else
      let ds := if (str_to_bool (some d)).isSome then [] else splitOnC d
      (.distinct ds qs, { opts with distinct := some true })

/-- The projection pre-pass (`simple`/`fields`, lines 143-163): strip eager
loading, then re-add the relation prefixes of the requested paths and
restrict the loaded columns.  Python accumulates the names in sets; the
model keeps first-occurrence order. -/
def dedup (l : List String) : List String :=
  l.foldl (fun acc x => if acc.contains x then acc else acc ++ [x]) []

/-- The `fields`/`simple` branch of `get_queryset`. -/
def prePass (fieldsStr : String) : Plan :=
  let qs := Plan.selectRelatedNone .base
  let fieldList := (splitOnC fieldsStr).filter (fun f => f != "")
  let fieldNames := dedup fieldList
  let relateds := dedup (fieldList.filterMap (fun f =>
    let parts := splitOnUU f
    if parts.length ≤ 1 then none else some (joinUU parts.dropLast)))
  let qs1 := if relateds.isEmpty then qs else .selectRelated relateds qs
  if fieldNames.isEmpty then qs1 else .only fieldNames qs1

/-- The metadata branch (lines 165-180): when `meta` is truthy and the
viewset declares metadata relations, attach the deduplicated prefetches
(the base plan carries no prefetch lookups, so none conflict). -/
def metaPass (ctx : Ctx) (ps : Params) : Plan :=
  let m := (str_to_bool (List.lookup "meta" ps)).getD false
  match ctx.metadatas with
  | some lookups => if m && !lookups.isEmpty then .prefetchMeta lookups .base else .base
  | none => .base

/-- The plan produced by the projection pre-pass / metadata branch. -/
def preQs (ctx : Ctx) (ps : Params) : Plan :=
  let fieldsStr := replaceDots ((List.lookup "fields" ps).getD "")
  if str_to_bool (List.lookup "simple" ps) == some true || fieldsStr != "" then
    prePass fieldsStr
  else metaPass ctx ps

/-- Whether the plan carries an explicit ordering (`queryset.ordered`). -/
def Plan.ordered : Plan → Bool
  | .base => false
  | .orderBy _ _ => true
  | .selectRelatedNone p => p.ordered
  | .selectRelated _ p => p.ordered
  | .only _ p => p.ordered
  | .prefetchMeta _ p => p.ordered
  | .filter _ p => p.ordered
  | .exclude _ p => p.ordered
  | .filterExpr _ p => p.ordered
  | .values _ p => p.ordered
  | .annotate _ p => p.ordered
  | .distinct _ p => p.ordered

/-- Django `queryset._fields`: the projected field names of a values queryset, when
one is part of the plan. -/
def Plan.valuesFields : Plan → Option (List String)
  | .base => none
  | .values fs _ => some fs
  | .selectRelatedNone p => p.valuesFields
  | .selectRelated _ p => p.valuesFields
  | .only _ p => p.valuesFields
  | .prefetchMeta _ p => p.valuesFields
  | .filter _ p => p.valuesFields
  | .exclude _ p => p.valuesFields
  | .filterExpr _ p => p.valuesFields
  | .annotate _ p => p.valuesFields
  | .distinct _ p => p.valuesFields
  | .orderBy _ p => p.valuesFields

/-- Python `getattr(queryset, '_fields', None) or [pk]`. -/
def orderKeys (qs : Plan) (pk : String) : List String :=
  match qs.valuesFields with
  | some [] => [pk]
  | some fs => fs
  | none => [pk]

/-- The silent flag: `str_to_bool(url_params.get('silent', None))`, truthy
only when it parses to `True`. -/
def silentOf (ps : Params) : Bool :=
  str_to_bool (List.lookup "silent" ps) == some true

/-! ## `get_queryset` -/

/-- The compilation pipeline after cache resolution: projection pre-pass,
aggregation, filter clauses, ordering, distinct, and the ordering safety
net for pagination; strict-mode errors record `self.queryset_error`. -/
def pipeline (ctx : Ctx) (ps : Params) (opts0 : Options) (st : ViewState) :
    GetResult × ViewState :=
  let rs := reservedParams ctx
  let silent := silentOf ps
  let qs1 := preQs ctx ps
  match aggStage ctx rs silent ctx.debug ps qs1 opts0 with
  | .err tag msg =>
    (.validationError tag msg, { st with queryset_error := some (tag ++ ": " ++ msg) })
  | .terminal vals => (.scalar vals, st)
  | .next qs2 opts2 =>
    match doFilterStage ctx rs silent ctx.debug ps qs2 opts2 with
    | .error tm =>
      (.validationError tm.1 tm.2, { st with queryset_error := some (tm.1 ++ ": " ++ tm.2) })
    | .ok (qs3, opts3) =>
      match orderStage ctx silent ctx.debug ps qs3 opts3 with
      | .error tm =>
        (.validationError tm.1 tm.2, { st with queryset_error := some (tm.1 ++ ": " ++ tm.2) })
      | .ok (qs4, opts4) =>
        let dq := distinctStage ps qs4 opts4
        let qs6 := if ctx.paginator && !dq.1.ordered then
            Plan.orderBy (orderKeys dq.1 ctx.pk) dq.1
          else dq.1
        (.plan qs6 dq.2, st)

/-- The method `CommonModelViewSet.get_queryset`: short-circuit when a failure is
already recorded, resolve the cache, run the pipeline.  The triple returned
is (result, process-wide cache, per-request state). -/
def get_queryset (ctx : Ctx) (cache : Cache) (st : ViewState) (qparams : Params) :
    GetResult × Cache × ViewState :=
  if st.queryset_error.isSome then (.noneResult, cache, st)
  else
    match cacheStage ctx cache qparams with
    | .fault msg cache1 => (.fault msg, cache1, st)
    | .ok ups opts0 cache1 =>
      let r := pipeline ctx ups opts0 st
      (r.1, cache1, r.2)

/-! ## Plan structure predicates -/

/-- Whether the plan contains any filter-stage node (include clauses,
exclude clauses, or the free-text predicate). -/
def Plan.hasFilterNode : Plan → Bool
  | .base => false
  | .filter _ _ => true
  | .exclude _ _ => true
  | .filterExpr _ _ => true
  | .selectRelatedNone p => p.hasFilterNode
  | .selectRelated _ p => p.hasFilterNode
  | .only _ p => p.hasFilterNode
  | .prefetchMeta _ p => p.hasFilterNode
  | .values _ p => p.hasFilterNode
  | .annotate _ p => p.hasFilterNode
  | .distinct _ p => p.hasFilterNode
  | .orderBy _ p => p.hasFilterNode

/-- Whether the plan contains a grouping (`values`) node. -/
def Plan.hasValuesNode : Plan → Bool
  | .base => false
  | .values _ _ => true
  | .selectRelatedNone p => p.hasValuesNode
  | .selectRelated _ p => p.hasValuesNode
  | .only _ p => p.hasValuesNode
  | .prefetchMeta _ p => p.hasValuesNode
  | .filter _ p => p.hasValuesNode
  | .exclude _ p => p.hasValuesNode
  | .filterExpr _ p => p.hasValuesNode
  | .annotate _ p => p.hasValuesNode
  | .distinct _ p => p.hasValuesNode
  | .orderBy _ p => p.hasValuesNode

/-- Whether some filter-stage node is applied on top of a grouped
(`values`) plan: the filter transforms the grouped rows. -/
def Plan.hasFilterOverValues : Plan → Bool
  | .base => false
  | .filter _ p => p.hasValuesNode || p.hasFilterOverValues
  | .exclude _ p => p.hasValuesNode || p.hasFilterOverValues
  | .filterExpr _ p => p.hasValuesNode || p.hasFilterOverValues
  | .selectRelatedNone p => p.hasFilterOverValues
  | .selectRelated _ p => p.hasFilterOverValues
  | .only _ p => p.hasFilterOverValues
  | .prefetchMeta _ p => p.hasFilterOverValues
  | .values _ p => p.hasFilterOverValues
  | .annotate _ p => p.hasFilterOverValues
  | .distinct _ p => p.hasFilterOverValues
  | .orderBy _ p => p.hasFilterOverValues

/-- The subplan sitting under the grouping (`values`) node, when there is
one: what the collection was grouped from. -/
def Plan.valuesInner : Plan → Option Plan
  | .base => none
  | .values _ p => some p
  | .selectRelatedNone p => p.valuesInner
  | .selectRelated _ p => p.valuesInner
  | .only _ p => p.valuesInner
  | .prefetchMeta _ p => p.valuesInner
  | .filter _ p => p.valuesInner
  | .exclude _ p => p.valuesInner
  | .filterExpr _ p => p.valuesInner
  | .annotate _ p => p.valuesInner
  | .distinct _ p => p.valuesInner
  | .orderBy _ p => p.valuesInner

/-- Whether the plan is result-set neutral: only projection / eager-loading
nodes, no filter, grouping, ordering or distinct transformation. -/
def Plan.resultSetNeutral : Plan → Bool
  | .base => true
  | .selectRelatedNone p => p.resultSetNeutral
  | .selectRelated _ p => p.resultSetNeutral
  | .only _ p => p.resultSetNeutral
  | .prefetchMeta _ p => p.resultSetNeutral
  | .filter _ _ => false
  | .exclude _ _ => false
  | .filterExpr _ _ => false
  | .values _ _ => false
  | .annotate _ _ => false
  | .distinct _ _ => false
  | .orderBy _ _ => false

/-- The plan of a result, when the result is a plan. -/
def GetResult.planOf : GetResult → Option Plan
  | .plan p _ => some p
  | _ => none

/-! ## Helper lemmas -/

/-- A key without a binding is not the key of any entry. -/
theorem lookup_none_notMem {k : String} {ps : Params}
    (h : List.lookup k ps = none) : ∀ kv ∈ ps, kv.1 ≠ k := by
  induction ps with
  | nil => intro kv hm; cases hm
  | cons hd tl ih =>
    intro kv hm
    rw [List.lookup_cons] at h
    by_cases he : k = hd.1
    · simp [he] at h
    · rcases List.mem_cons.mp hm with hm | hm
      · subst hm; exact fun hc => he hc.symm
      · have := ih (by simpa [beq_eq_false_iff_ne.mpr he] using h)
        exact this kv hm

/-- Filtering on a predicate that holds of every entry is the identity. -/
theorem filter_eq_self_of_all {α : Type} {p : α → Bool} {l : List α}
    (h : ∀ a ∈ l, p a = true) : l.filter p = l := by
  induction l with
  | nil => rfl
  | cons hd tl ih =>
    simp only [List.filter_cons, h hd (by simp)]
    exact congrArg (hd :: ·) (ih fun a ha => h a (by simp [ha]))

/-- Looking up a key that the filter predicate never removes. -/
theorem lookup_filter_key {k : String} {p : String × String → Bool} {ps : Params}
    (h : ∀ kv : String × String, kv.1 = k → p kv = true) :
    List.lookup k (ps.filter p) = List.lookup k ps := by
  induction ps with
  | nil => rfl
  | cons hd tl ih =>
    obtain ⟨k0, v0⟩ := hd
    by_cases he : k = k0
    · have := h (k0, v0) he.symm
      subst he
      simp [List.filter_cons, this, List.lookup]
    · cases hp : p (k0, v0) with
      | true =>
        simp [List.filter_cons, hp, List.lookup, beq_eq_false_iff_ne.mpr he, ih]
      | false =>
        simp [List.lookup, beq_eq_false_iff_ne.mpr he, List.filter_cons, hp, ih]

/-- Without a `cache` parameter the cache block is a no-op. -/
theorem cacheStage_no_cache (ctx : Ctx) (cache : Cache) {ps : Params}
    (h : List.lookup "cache" ps = none) : cacheStage ctx cache ps = .ok ps {} cache := by
  have hfix : ps.filter (fun kv => kv.1 != "cache") = ps :=
    filter_eq_self_of_all fun kv hm => by
      have := lookup_none_notMem h kv hm
      simpa [bne] using this
  simp [cacheStage, h, hfix]

/-- Parameters whose keys are all reserved produce no filter clause. -/
theorem buildFilters_reserved {rs : List String} {ps : Params}
    (h : ∀ kv ∈ ps, rs.contains kv.1 = true) : buildFilters rs ps = ([], []) := by
  induction ps with
  | nil => rfl
  | cons hd tl ih =>
    have hh := h hd (by simp)
    simp only [buildFilters, ih fun kv hm => h kv (by simp [hm]), hh, if_true]

/-- With no filter clauses and no free-text `filters` parameter, `do_filter`
leaves the collection and options unchanged. -/
theorem doFilterStage_trivial (ctx : Ctx) {rs : List String} (silent dbg : Bool)
    {ps : Params} (qs : Plan) (opts : Options)
    (hb : buildFilters rs ps = ([], []))
    (hf : List.lookup "filters" ps = none) :
    doFilterStage ctx rs silent dbg ps qs opts = .ok (qs, opts) := by
  simp [doFilterStage, hb, hf]

/-- With no aggregate parameter at all, no aggregate spec is built. -/
theorem buildAggs_none {ps : Params}
    (h : ∀ ag ∈ AGGREGATES, List.lookup ag.1 ps = none) : buildAggs ps = [] := by
  have h1 := h ("sum", .sum) (by simp [AGGREGATES])
  have h2 := h ("count", .count) (by simp [AGGREGATES])
  have h3 := h ("avg", .avg) (by simp [AGGREGATES])
  have h4 := h ("min", .minF) (by simp [AGGREGATES])
  have h5 := h ("max", .maxF) (by simp [AGGREGATES])
  simp [buildAggs, AGGREGATES, h1, h2, h3, h4, h5, splitOnC, splitCommaChars]

/-- With no aggregate specs and no `group_by`, the aggregation block is a
no-op. -/
theorem aggStage_trivial (ctx : Ctx) {rs : List String} (silent dbg : Bool)
    {ps : Params} (qs : Plan) (opts : Options)
    (ha : buildAggs ps = [])
    (hg : List.lookup "group_by" ps = none) :
    aggStage ctx rs silent dbg ps qs opts = .next qs opts := by
  simp [aggStage, hg, aggTerminal, ha]

/-- A viewset without a `metadatas` attribute never prefetches metadata. -/
theorem metaPass_none {ctx : Ctx} (h : ctx.metadatas = none) (ps : Params) :
    metaPass ctx ps = .base := by
  simp [metaPass, h]

/-- With no `fields`, no `simple` and no `metadatas` attribute, the
projection pre-pass returns the base collection unchanged. -/
theorem preQs_base {ctx : Ctx} {ps : Params}
    (hf : List.lookup "fields" ps = none)
    (hs : List.lookup "simple" ps = none)
    (hm : ctx.metadatas = none) :
    preQs ctx ps = .base := by
  simp [preQs, hf, hs, str_to_bool, replaceDots, metaPass_none hm]

/-! ## Concrete contexts used by witnesses and counterexamples -/

/-- A small context: three resolvable fields, no paginator, no metadata
relations, strict DEBUG off, empty base collection. -/
def ctxNT : Ctx := ⟨["name", "type", "amount"], "id", false, none, false, [], 0⟩

/-- Context whose base collection has a numeric `amount` field with values
10, 20 and 30 (§8's aggregation example). -/
def ctxAmount : Ctx :=
  ⟨["amount"], "id", false, none, false,
    [[("amount", "10")], [("amount", "20")], [("amount", "30")]], 0⟩

/-- Context with fields `a` and `b` at a given instant (cache round-trip). -/
def ctxAB (t : Int) : Ctx := ⟨["a", "b"], "id", false, none, false, [], t⟩

/-- Context with two date fields (field-reference comparison). -/
def ctxSD : Ctx := ⟨["start_date", "end_date"], "id", false, none, false, [], 0⟩

/-! ## C2: silent vs strict handling of a malformed order_by -/

/-- C2.  For a parameter bundle whose other stages are benign (all keys
reserved, no cache/fields/simple/filters/group_by/distinct/aggregates, no
paginator or metadata relations) and whose `order_by` value contains a
field that does not resolve: with `silent=true` compilation succeeds, the
plan is the pre-ordering collection (the untouched base), and the options
record `order_by = false`; with `silent` absent or not parsing to true,
compilation raises a validation error tagged `order_by`. -/
theorem orderby_silent_strict
    (ctx : Ctx) (cache : Cache) (st : ViewState) (ps : Params) (ob : String)
    (hq : st.queryset_error = none)
    (hpag : ctx.paginator = false)
    (hmeta : ctx.metadatas = none)
    (hres : ∀ kv ∈ ps, (reservedParams ctx).contains kv.1 = true)
    (hcache : List.lookup "cache" ps = none)
    (hfields : List.lookup "fields" ps = none)
    (hsimple : List.lookup "simple" ps = none)
    (hfilters : List.lookup "filters" ps = none)
    (hgroup : List.lookup "group_by" ps = none)
    (hdist : List.lookup "distinct" ps = none)
    (hagg : ∀ ag ∈ AGGREGATES, List.lookup ag.1 ps = none)
    (hord : List.lookup "order_by" ps = some ob)
    (hne : ob ≠ "")
    (hbad : (splitOnC ob).all (fun f => ctx.schema.contains (stripNeg f)) = false) :
    (silentOf ps = true →
      ∃ o, (get_queryset ctx cache st ps).1 = .plan .base o ∧ o.order_by = some false) ∧
    (silentOf ps = false →
      (get_queryset ctx cache st ps).1 =
        .validationError "order_by" "invalid order_by field") := by
  have hpre : preQs ctx ps = .base := preQs_base hfields hsimple hmeta
  have hfe : buildFilters (reservedParams ctx) ps = ([], []) := buildFilters_reserved hres
  have haggs : buildAggs ps = [] := buildAggs_none hagg
  have hbad' : ¬ ∀ f ∈ splitOnC ob, stripNeg f ∈ ctx.schema := by
    simpa using hbad
  have hmain : (get_queryset ctx cache st ps).1 = (pipeline ctx ps {} st).1 := by
    simp [get_queryset, hq, cacheStage_no_cache ctx cache hcache]
  constructor
  · intro hsil
    refine ⟨{ order_by := some false,
              order_by_error := if ctx.debug then some "invalid order_by field" else none }, ?_, rfl⟩
    rw [hmain]
    simp [pipeline, hpre, hsil,
      aggStage_trivial ctx true ctx.debug Plan.base ({} : Options) haggs hgroup,
      doFilterStage_trivial ctx true ctx.debug Plan.base ({} : Options) hfe hfilters,
      orderStage, hord, hne, hbad', distinctStage, hdist, hpag]
  · intro hsil
    rw [hmain]
    simp [pipeline, hpre, hsil,
      aggStage_trivial ctx false ctx.debug Plan.base ({} : Options) haggs hgroup,
      doFilterStage_trivial ctx false ctx.debug Plan.base ({} : Options) hfe hfilters,
      orderStage, hord, hne, hbad']

/-- Witness for C2: both branches at concrete inputs. -/
theorem orderby_silent_strict_witness :
    (∃ o, (get_queryset ctxNT [] {} [("order_by", "bad"), ("silent", "true")]).1 =
      .plan .base o ∧ o.order_by = some false) ∧
    (get_queryset ctxNT [] {} [("order_by", "bad")]).1 =
      .validationError "order_by" "invalid order_by field" := by
  constructor
  · exact (orderby_silent_strict ctxNT [] {} [("order_by", "bad"), ("silent", "true")] "bad"
      rfl rfl rfl (by decide) (by decide) (by decide) (by decide) (by decide) (by decide)
      (by decide) (by decide) (by decide) (by decide) (by decide)).1 (by decide)
  · exact (orderby_silent_strict ctxNT [] {} [("order_by", "bad")] "bad"
      rfl rfl rfl (by decide) (by decide) (by decide) (by decide) (by decide) (by decide)
      (by decide) (by decide) (by decide) (by decide) (by decide)).2 (by decide)

/-! ## C5: bundles of reserved keys only -/

/-- The projection pre-pass only produces projection / eager-loading
nodes. -/
theorem prePass_neutral (f : String) : (prePass f).resultSetNeutral = true := by
  simp only [prePass]
  split_ifs <;> simp [Plan.resultSetNeutral]

/-- The metadata branch only produces prefetch nodes. -/
theorem metaPass_neutral (ctx : Ctx) (ps : Params) :
    (metaPass ctx ps).resultSetNeutral = true := by
  simp only [metaPass]
  split
  · split_ifs <;> simp [Plan.resultSetNeutral]
  · simp [Plan.resultSetNeutral]

/-- The plan entering the aggregation stage is result-set neutral. -/
theorem preQs_neutral (ctx : Ctx) (ps : Params) :
    (preQs ctx ps).resultSetNeutral = true := by
  simp only [preQs]
  split_ifs
  · exact prePass_neutral _
  · exact metaPass_neutral _ _

/-- C5 counterexample.  The bundle `order_by=name` consists solely of
reserved keys, yet the compiled plan orders the collection: it is not the
unfiltered base collection, refuting the claim that a bundle of reserved
keys always compiles to the untouched base with no ordering applied. -/
theorem reserved_only_counterexample :
    (∀ kv ∈ [("order_by", "name")], kv.1 ∈ reservedParams ctxNT) ∧
    (get_queryset ctxNT [] {} [("order_by", "name")]).1 =
      .plan (.orderBy ["name"] .base) { order_by := some true } ∧
    (Plan.orderBy ["name"] .base).resultSetNeutral = false := by
  refine ⟨by decide, ?_, by decide⟩
  decide

/-- C5 as amended.  For a parameter bundle whose keys are all reserved and
which carries none of the transform-requesting reserved keys (`cache`,
`timeout`, `filters`, `order_by`, `distinct`, `group_by`, the aggregate
names) nor projection triggers needing schema data, in a context without
the pagination metadata channel, the compiled plan is result-set neutral —
no filter, ordering, distinct or grouping transformation is applied and
every transform flag in the options is unset. -/
theorem reserved_only_plan_neutral
    (ctx : Ctx) (cache : Cache) (st : ViewState) (ps : Params)
    (hq : st.queryset_error = none)
    (hpag : ctx.paginator = false)
    (hres : ∀ kv ∈ ps, (reservedParams ctx).contains kv.1 = true)
    (hcache : List.lookup "cache" ps = none)
    (hfilters : List.lookup "filters" ps = none)
    (hgroup : List.lookup "group_by" ps = none)
    (hdist : List.lookup "distinct" ps = none)
    (hagg : ∀ ag ∈ AGGREGATES, List.lookup ag.1 ps = none)
    (hord : List.lookup "order_by" ps = none) :
    (get_queryset ctx cache st ps).1 = .plan (preQs ctx ps) {} ∧
    (preQs ctx ps).resultSetNeutral = true := by
  refine ⟨?_, preQs_neutral ctx ps⟩
  have hfe : buildFilters (reservedParams ctx) ps = ([], []) := buildFilters_reserved hres
  have haggs : buildAggs ps = [] := buildAggs_none hagg
  have hmain : (get_queryset ctx cache st ps).1 = (pipeline ctx ps {} st).1 := by
    simp [get_queryset, hq, cacheStage_no_cache ctx cache hcache]
  rw [hmain]
  simp [pipeline,
    aggStage_trivial ctx (silentOf ps) ctx.debug (preQs ctx ps) ({} : Options) haggs hgroup,
    doFilterStage_trivial ctx (silentOf ps) ctx.debug (preQs ctx ps) ({} : Options) hfe hfilters,
    orderStage, hord, distinctStage, hdist, hpag]

/-- Witness for C5 (amended): a bundle of only passive reserved keys
compiles to the untouched base collection. -/
theorem reserved_only_plan_neutral_witness :
    (get_queryset ctxNT [] {} [("silent", "true"), ("all", "1")]).1 =
      .plan (preQs ctxNT [("silent", "true"), ("all", "1")]) {} ∧
    (preQs ctxNT [("silent", "true"), ("all", "1")]).resultSetNeutral = true :=
  reserved_only_plan_neutral ctxNT [] {} [("silent", "true"), ("all", "1")]
    rfl rfl (by decide) (by decide) (by decide) (by decide) (by decide) (by decide) (by decide)

/-! ## C1: filters and the grouped plan -/

/-- A result-set-neutral plan contains no filter-stage node. -/
theorem neutral_no_filter_node :
    ∀ p : Plan, p.resultSetNeutral = true → p.hasFilterNode = false := by
  intro p h
  induction p <;> simp_all [Plan.resultSetNeutral, Plan.hasFilterNode]

/-- The `except` helper of `do_filter` either fails strictly or hands back
the collection it was given with `filters = false` recorded. -/
theorem filterFail_ok {silent dbg : Bool} {qs : Plan} {opts : Options} {m : String}
    {q' : Plan} {o' : Options}
    (h : filterFail silent dbg qs opts m = .ok (q', o')) :
    q' = qs ∧ o'.filters = some false := by
  cases silent with
  | false => simp [filterFail] at h
  | true =>
    have h' : Except.ok (ε := String × String)
        (qs, { opts with filters := some false,
                         filters_error := if dbg then some m else none }) =
          Except.ok (q', o') := by simpa [filterFail] using h
    injection h' with h1
    obtain ⟨rfl, rfl⟩ := Prod.mk.inj h1
    exact ⟨rfl, rfl⟩

/-- The include/exclude wrapping of `do_filter` leaves the subplan under a
grouping node untouched. -/
theorem valuesInner_fe (fs es : List (String × QueryVal)) (qs : Plan) :
    (if es.isEmpty then (if fs.isEmpty then qs else Plan.filter fs qs)
     else Plan.exclude es (if fs.isEmpty then qs else Plan.filter fs qs)).valuesInner =
      qs.valuesInner := by
  cases fs.isEmpty <;> cases es.isEmpty <;> simp [Plan.valuesInner]

/-- The include/exclude wrapping of `do_filter` does not add or remove
grouping nodes. -/
theorem hasValuesNode_fe (fs es : List (String × QueryVal)) (qs : Plan) :
    (if es.isEmpty then (if fs.isEmpty then qs else Plan.filter fs qs)
     else Plan.exclude es (if fs.isEmpty then qs else Plan.filter fs qs)).hasValuesNode =
      qs.hasValuesNode := by
  cases fs.isEmpty <;> cases es.isEmpty <;> simp [Plan.hasValuesNode]

/-- When at least one clause set is nonempty, the include/exclude wrapping
puts a filter node over the grouped input. -/
theorem hFOV_fe (fs es : List (String × QueryVal)) (qs : Plan)
    (hne : (fs.isEmpty && es.isEmpty) = false) (hv : qs.hasValuesNode = true) :
    (if es.isEmpty then (if fs.isEmpty then qs else Plan.filter fs qs)
     else Plan.exclude es (if fs.isEmpty then qs else Plan.filter fs qs)).hasFilterOverValues =
      true := by
  cases hfs : fs.isEmpty <;> cases hes : es.isEmpty <;>
    simp_all [Plan.hasFilterOverValues, Plan.hasValuesNode]

/-- Whatever `do_filter` returns wraps its input from the outside: the
subplan under a grouping node is untouched, and when the options record the
filter stage as newly applied over a grouped input, some filter node sits
above the grouping node. -/
theorem doFilterStage_ok_spec {ctx : Ctx} {rs : List String} {silent dbg : Bool}
    {ps : Params} {qs : Plan} {opts : Options} {q' : Plan} {o' : Options}
    (h : doFilterStage ctx rs silent dbg ps qs opts = .ok (q', o')) :
    q'.valuesInner = qs.valuesInner ∧
    (o'.filters = some true →
      opts.filters = some true ∨
        (qs.hasValuesNode = true → q'.hasFilterOverValues = true)) := by
  rcases hbf : buildFilters rs ps with ⟨fs, es⟩
  simp only [doFilterStage, hbf] at h
  split at h
  · rcases filterFail_ok h with ⟨rfl, hf⟩
    exact ⟨rfl, by simp [hf]⟩
  · split at h
    · rcases filterFail_ok h with ⟨rfl, hf⟩
      refine ⟨?_, by simp [hf]⟩
      cases hfs : fs.isEmpty <;> simp [hfs, Plan.valuesInner]
    · split at h
      · -- free-text `filters` parameter present
        split at h
        · -- empty free-text value: behaves like the absent case
          split at h
          · injection h with h1
            obtain ⟨rfl, rfl⟩ := Prod.mk.inj h1
            exact ⟨valuesInner_fe fs es qs, fun hx => Or.inl hx⟩
          · rename_i hc
            injection h with h1
            obtain ⟨rfl, rfl⟩ := Prod.mk.inj h1
            refine ⟨valuesInner_fe fs es qs, fun _ => Or.inr fun hv => ?_⟩
            exact hFOV_fe fs es qs (by simpa using hc) hv
        · -- nonempty free-text value: the predicate node is added on top
          injection h with h1
          obtain ⟨rfl, rfl⟩ := Prod.mk.inj h1
          refine ⟨?_, fun _ => Or.inr fun hv => ?_⟩
          · simpa [Plan.valuesInner] using valuesInner_fe fs es qs
          · simp only [Plan.hasFilterOverValues]
            rw [hasValuesNode_fe fs es qs, hv]
            simp
      · -- no free-text parameter
        split at h
        · injection h with h1
          obtain ⟨rfl, rfl⟩ := Prod.mk.inj h1
          exact ⟨valuesInner_fe fs es qs, fun hx => Or.inl hx⟩
        · rename_i hc
          injection h with h1
          obtain ⟨rfl, rfl⟩ := Prod.mk.inj h1
          refine ⟨valuesInner_fe fs es qs, fun _ => Or.inr fun hv => ?_⟩
          exact hFOV_fe fs es qs (by simpa using hc) hv

/-- The ordering stage only wraps the plan from the outside and never
touches the recorded filter flag. -/
theorem orderStage_ok_spec {ctx : Ctx} {silent dbg : Bool} {ps : Params}
    {qs : Plan} {opts : Options} {q' : Plan} {o' : Options}
    (h : orderStage ctx silent dbg ps qs opts = .ok (q', o')) :
    q'.valuesInner = qs.valuesInner ∧
    q'.hasFilterOverValues = qs.hasFilterOverValues ∧
    o'.filters = opts.filters := by
  cases hlk : List.lookup "order_by" ps <;> simp only [orderStage, hlk] at h
  · injection h with h1
    obtain ⟨rfl, rfl⟩ := Prod.mk.inj h1
    exact ⟨rfl, rfl, rfl⟩
  · split at h
    · injection h with h1
      obtain ⟨rfl, rfl⟩ := Prod.mk.inj h1
      exact ⟨rfl, rfl, rfl⟩
    · split at h
      · injection h with h1
        obtain ⟨rfl, rfl⟩ := Prod.mk.inj h1
        exact ⟨rfl, rfl, rfl⟩
      · split at h
        · injection h with h1
          obtain ⟨rfl, rfl⟩ := Prod.mk.inj h1
          exact ⟨rfl, rfl, rfl⟩
        · cases h

/-- The distinct stage only wraps the plan from the outside and never
touches the recorded filter flag. -/
theorem distinctStage_spec (ps : Params) (qs : Plan) (opts : Options) :
    (distinctStage ps qs opts).1.valuesInner = qs.valuesInner ∧
    (distinctStage ps qs opts).1.hasFilterOverValues = qs.hasFilterOverValues ∧
    (distinctStage ps qs opts).2.filters = opts.filters := by
  cases hlk : List.lookup "distinct" ps <;> simp only [distinctStage, hlk]
  · simp
  · split
    · simp
    · simp [Plan.valuesInner, Plan.hasFilterOverValues]

/-- C1 counterexample.  With `group_by=type` and the non-reserved filter
parameter `name=x`, the compiled plan applies the include filter clause on
top of the grouped (`values`-projected) plan — refuting the claim that
compilation with `group_by` present never applies the filter clauses to the
grouped plan. -/
theorem groupby_filter_applied_counterexample :
    (get_queryset ctxNT [] {} [("group_by", "type"), ("name", "x")]).1 =
      .plan (.filter [("name", .lit "x")] (.distinct [] (.values ["type"] .base)))
        { aggregates := some true, filters := some true } ∧
    (Plan.filter [("name", .lit "x")]
        (.distinct [] (.values ["type"] .base))).hasFilterOverValues = true := by
  constructor
  · decide
  · decide

/-- C1 as amended.  When `group_by` is present (and no cache token rewrites
the bundle), the filter-clause stage is still applied, but after grouping
and to the grouped plan: whenever compilation yields a plan, the subplan
under the grouping node carries no filter node (filters are never applied
before grouping), and whenever the options record the filter stage as
applied, a filter node sits above the grouping node. -/
theorem pipeline_plan_spec (ctx : Ctx) (ps : Params) (opts0 : Options) (st : ViewState) :
    ∀ p o, (pipeline ctx ps opts0 st).1 = .plan p o →
      ∃ q2 o2,
        aggStage ctx (reservedParams ctx) (silentOf ps) ctx.debug ps (preQs ctx ps) opts0 =
          .next q2 o2 ∧
        p.valuesInner = q2.valuesInner ∧
        (o.filters = some true →
          o2.filters = some true ∨
            (q2.hasValuesNode = true → p.hasFilterOverValues = true)) := by
  intro p o hres
  rw [pipeline] at hres
  cases hagg : aggStage ctx (reservedParams ctx) (silentOf ps) ctx.debug ps
      (preQs ctx ps) opts0 with
  | err tag msg =>
    rw [hagg] at hres
    simp at hres
  | terminal vals =>
    rw [hagg] at hres
    simp at hres
  | next q2 o2 =>
    rw [hagg] at hres
    simp only [] at hres
    refine ⟨q2, o2, rfl, ?_⟩
    cases hdf : doFilterStage ctx (reservedParams ctx) (silentOf ps) ctx.debug ps q2 o2 with
    | error tm =>
      rw [hdf] at hres
      simp at hres
    | ok q3o3 =>
      rw [hdf] at hres
      rcases q3o3 with ⟨q3, o3⟩
      simp only [] at hres
      cases hor : orderStage ctx (silentOf ps) ctx.debug ps q3 o3 with
      | error tm =>
        rw [hor] at hres
        simp at hres
      | ok q4o4 =>
        rw [hor] at hres
        rcases q4o4 with ⟨q4, o4⟩
        simp only [] at hres
        injection hres with h1 h2
        rcases doFilterStage_ok_spec hdf with ⟨hvi3, hff3⟩
        rcases orderStage_ok_spec hor with ⟨hvi4, hfo4, hff4⟩
        rcases distinctStage_spec ps q4 o4 with ⟨hvi5, hfo5, hff5⟩
        constructor
        · rw [← h1]
          split
          · simp [Plan.valuesInner, hvi5, hvi4, hvi3]
          · rw [hvi5, hvi4, hvi3]
        · intro hft
          have ho3 : o3.filters = some true := by
            rw [← h2, hff5, hff4] at hft
            exact hft
          rcases hff3 ho3 with hl | hr
          · exact Or.inl hl
          · refine Or.inr fun hv => ?_
            have h3 : q3.hasFilterOverValues = true := hr hv
            rw [← h1]
            split
            · simp [Plan.hasFilterOverValues, hfo5, hfo4, h3]
            · rw [hfo5, hfo4]
              exact h3

/-- C1 as amended (main theorem).  When `group_by` is present (and no cache
token rewrites the bundle), the filter-clause stage is still applied, but
after grouping and to the grouped plan: whenever compilation yields a plan,
the subplan under the grouping node carries no filter node (filters are
never applied before grouping), and whenever the options record the filter
stage as applied, a filter node sits above the grouping node. -/
theorem groupby_filters_after_grouping
    (ctx : Ctx) (cache : Cache) (st : ViewState) (ps : Params) (g : String)
    (hq : st.queryset_error = none)
    (hcache : List.lookup "cache" ps = none)
    (hg : List.lookup "group_by" ps = some g) (hne : g ≠ "") :
    ∀ p o, (get_queryset ctx cache st ps).1 = .plan p o →
      (∃ q, p.valuesInner = some q ∧ q.hasFilterNode = false) ∧
      (o.filters = some true → p.hasFilterOverValues = true) := by
  intro p o hres
  have hmain : (get_queryset ctx cache st ps).1 = (pipeline ctx ps {} st).1 := by
    simp [get_queryset, hq, cacheStage_no_cache ctx cache hcache]
  rw [hmain] at hres
  rcases pipeline_plan_spec ctx ps {} st p o hres with ⟨q2, o2, hagg, hvi, hff⟩
  simp only [aggStage, hg, if_neg hne] at hagg
  injection hagg with h1 h2
  have hq2vi : q2.valuesInner = some (preQs ctx ps) := by
    rw [← h1]
    cases (buildAggs ps).isEmpty <;> simp [Plan.valuesInner]
  have hq2vn : q2.hasValuesNode = true := by
    rw [← h1]
    cases (buildAggs ps).isEmpty <;> simp [Plan.hasValuesNode]
  refine ⟨⟨preQs ctx ps, by rw [hvi, hq2vi], ?_⟩, ?_⟩
  · exact neutral_no_filter_node _ (preQs_neutral ctx ps)
  · intro hft
    rcases hff hft with hl | hr
    · rw [← h2] at hl
      simp at hl
    · exact hr hq2vn

/-- Witness for C1 (amended) at the counterexample input. -/
theorem groupby_filters_after_grouping_witness :
    (∃ q, (Plan.filter [("name", QueryVal.lit "x")]
        (.distinct [] (.values ["type"] .base))).valuesInner = some q ∧
        q.hasFilterNode = false) ∧
    ({ aggregates := some true, filters := some true : Options }.filters = some true →
      (Plan.filter [("name", QueryVal.lit "x")]
        (.distinct [] (.values ["type"] .base))).hasFilterOverValues = true) :=
  groupby_filters_after_grouping ctxNT [] {} [("group_by", "type"), ("name", "x")] "type"
    rfl (by decide) (by decide) (by decide)
    (.filter [("name", .lit "x")] (.distinct [] (.values ["type"] .base)))
    { aggregates := some true, filters := some true }
    (by decide)

/-! ## C4: aggregation without group_by -/

/-- C4.  When the bundle carries aggregate specs but no truthy `group_by`
(and no cache token rewrites it), compilation applies the filter-clause
stage first and terminates with the scalar map from alias
(`field + '_' + aggregate`) to the value computed over the filtered rows —
a `scalar` result, to which no ordering, distinct or pagination transform
is ever attached.  Moreover §8's concrete example holds: records with
`amount` 10, 20, 30 and parameter `sum=amount` yield
`{"amount_sum": 60}`. -/
theorem aggregate_terminal_prefiltered
    (ctx : Ctx) (cache : Cache) (st : ViewState) (ps : Params) (q1 : Plan) (o1 : Options)
    (hq : st.queryset_error = none)
    (hcache : List.lookup "cache" ps = none)
    (hgroup : (List.lookup "group_by" ps).getD "" = "")
    (ha : (buildAggs ps).isEmpty = false)
    (hv : (buildAggs ps).all (fun a => ctx.schema.contains a.2.2) = true)
    (hf : doFilterStage ctx (reservedParams ctx) (silentOf ps) ctx.debug ps
      (preQs ctx ps) {} = .ok (q1, o1)) :
    (get_queryset ctx cache st ps).1 =
      .scalar (computeAggs (buildAggs ps) (runPlan ctx q1)) ∧
    (get_queryset ctxAmount [] {} [("sum", "amount")]).1 =
      .scalar [("amount_sum", 60)] := by
  refine ⟨?_, by decide⟩
  have hmain : (get_queryset ctx cache st ps).1 = (pipeline ctx ps {} st).1 := by
    simp [get_queryset, hq, cacheStage_no_cache ctx cache hcache]
  rw [hmain, pipeline]
  have hterm : aggStage ctx (reservedParams ctx) (silentOf ps) ctx.debug ps
      (preQs ctx ps) {} = .terminal (computeAggs (buildAggs ps) (runPlan ctx q1)) := by
    rw [aggStage]
    have hbody : aggTerminal ctx (reservedParams ctx) (silentOf ps) ctx.debug ps
        (preQs ctx ps) {} (buildAggs ps) =
          .terminal (computeAggs (buildAggs ps) (runPlan ctx q1)) := by
      rw [aggTerminal, if_neg (by simp [ha]), hf]
      simp only []
      rw [if_pos hv]
    cases hlk : List.lookup "group_by" ps with
    | none => exact hbody
    | some g =>
      have hg : g = "" := by simpa [hlk] using hgroup
      subst hg
      simp only [if_pos rfl]
      exact hbody
  rw [hterm]

/-- Witness for C4 at the §8 example input. -/
theorem aggregate_terminal_prefiltered_witness :
    (get_queryset ctxAmount [] {} [("sum", "amount")]).1 =
      .scalar (computeAggs (buildAggs [("sum", "amount")])
        (runPlan ctxAmount Plan.base)) ∧
    (get_queryset ctxAmount [] {} [("sum", "amount")]).1 =
      .scalar [("amount_sum", 60)] :=
  aggregate_terminal_prefiltered ctxAmount [] {} [("sum", "amount")] Plan.base {}
    rfl (by decide) (by decide) (by decide) (by decide) rfl

/-! ## C6: re-invocation after a recorded failure -/

/-- C6 counterexample.  After a strict-mode failure the first invocation
returned the validation error and recorded it; re-invoking with the same
recorded state returns the empty result (`return` with no value), which is
not the recorded failure — refuting the claim that a re-invocation returns
the same recorded failure to the caller. -/
theorem refail_returns_none_counterexample :
    (get_queryset ctxNT [] {} [("order_by", "bad")]).1 =
      .validationError "order_by" "invalid order_by field" ∧
    (get_queryset ctxNT []
        (get_queryset ctxNT [] {} [("order_by", "bad")]).2.2
        [("order_by", "bad")]).1 = .noneResult ∧
    (GetResult.noneResult ≠
      GetResult.validationError "order_by" "invalid order_by field") := by
  refine ⟨by decide, by decide, by decide⟩

/-- C6 as amended.  Once a strict-mode failure has been recorded in
`queryset_error`, any re-invocation short-circuits — the compiler is not
re-entered, the cache and the recorded state are untouched — but the value
returned to the caller is the empty result (`None`), not the recorded
failure. -/
theorem failed_compilation_short_circuits
    (ctx : Ctx) (cache : Cache) (st : ViewState) (ps : Params) (e : String)
    (hq : st.queryset_error = some e) :
    get_queryset ctx cache st ps = (.noneResult, cache, st) := by
  simp [get_queryset, hq]

/-- Witness for C6 (amended). -/
theorem failed_compilation_short_circuits_witness :
    get_queryset ctxNT [] ⟨some "order_by: invalid order_by field"⟩ [("name", "x")] =
      (.noneResult, [], ⟨some "order_by: invalid order_by field"⟩) :=
  failed_compilation_short_circuits ctxNT [] ⟨some "order_by: invalid order_by field"⟩
    [("name", "x")] "order_by: invalid order_by field" rfl

/-! ## C7: what the cache store persists -/

/-- Merging the empty stored bundle with the incoming parameters gives the
incoming parameters. -/
theorem dictUpdate_nil (ov : Params) : dictUpdate [] ov = ov := by
  simp [dictUpdate, List.lookup]

/-- C7 counterexample.  The request `cache=tk&fields=name` stores the
reserved key `fields` in the cache entry: the bundle written under the
token is not stripped of reserved keys, refuting the claim that every
reserved key is excluded from the stored bundle. -/
theorem cache_store_reserved_counterexample :
    List.lookup (CACHE_KEY_HEAD ++ "tk")
      (get_queryset (ctxAB 5) [] {} [("cache", "tk"), ("fields", "name")]).2.1 =
      some ([("fields", "name")], some (5 + CACHE_TIMEOUT)) ∧
    "fields" ∈ RESERVED_QUERY_PARAMS := by
  refine ⟨by decide, by decide⟩

/-- C7 as amended.  The cache store persists, under the token, the merged
bundle minus the `cache` key itself and minus only the
`default_reserved_query_params` (`format` plus the paginator's page keys):
all other reserved keys (`fields`, `simple`, `order_by`, `timeout`, the
aggregate names, …) are stored.  Stated for a fresh token with no stored
entry and no `timeout` parameter; the entry expires at
`now + CACHE_TIMEOUT`. -/
theorem cache_store_excludes_default_reserved
    (ctx : Ctx) (cache : Cache) (st : ViewState) (ps : Params) (tok : String)
    (hq : st.queryset_error = none)
    (htok : List.lookup "cache" ps = some tok) (hne : tok ≠ "")
    (hmiss : List.lookup (CACHE_KEY_HEAD ++ tok) cache = none)
    (hto : List.lookup "timeout" ps = none)
    (hst : (((ps.filter (fun kv => kv.1 != "cache")).filter
        (fun kv => !(defaultReserved ctx).contains kv.1))).isEmpty = false) :
    List.lookup (CACHE_KEY_HEAD ++ tok) (get_queryset ctx cache st ps).2.1 =
      some ((ps.filter (fun kv => kv.1 != "cache")).filter
        (fun kv => !(defaultReserved ctx).contains kv.1),
        some (ctx.now + CACHE_TIMEOUT)) := by
  have hcget : cacheGet cache (CACHE_KEY_HEAD ++ tok) ctx.now = [] := by
    simp [cacheGet, hmiss]
  have hto1 : List.lookup "timeout" (ps.filter (fun kv => kv.1 != "cache")) = none := by
    rw [lookup_filter_key (fun kv hkv => by rw [hkv]; decide)]
    exact hto
  have hcs : cacheStage ctx cache ps =
      .ok ((ps.filter (fun kv => kv.1 != "cache")).filter (fun kv => kv.1 != "timeout"))
        { cache_expires := some (ctx.now + CACHE_TIMEOUT),
          cache_data := some ((ps.filter (fun kv => kv.1 != "cache")).filter
            (fun kv => !(defaultReserved ctx).contains kv.1)) }
        (cacheSet cache (CACHE_KEY_HEAD ++ tok)
          ((ps.filter (fun kv => kv.1 != "cache")).filter
            (fun kv => !(defaultReserved ctx).contains kv.1))
          (some (ctx.now + CACHE_TIMEOUT))) := by
    rw [cacheStage]
    rw [htok]
    simp only [if_neg hne, hcget, dictUpdate_nil, hto1, hst]
    rw [if_neg (by simp [hst])]
    rw [if_neg (by decide : ¬(CACHE_TIMEOUT = (0 : Int)))]
    rfl
  rw [get_queryset, if_neg (by simp [hq])]
  rw [hcs]
  simp [cacheSet, List.lookup]

/-- Witness for C7 (amended) at the counterexample input. -/
theorem cache_store_excludes_default_reserved_witness :
    List.lookup (CACHE_KEY_HEAD ++ "tk")
      (get_queryset (ctxAB 5) [] {} [("cache", "tk"), ("fields", "name")]).2.1 =
      some (([("cache", "tk"), ("fields", "name")].filter
          (fun kv => kv.1 != "cache")).filter
        (fun kv => !(defaultReserved (ctxAB 5)).contains kv.1),
        some ((ctxAB 5).now + CACHE_TIMEOUT)) :=
  cache_store_excludes_default_reserved (ctxAB 5) [] {}
    [("cache", "tk"), ("fields", "name")] "tk"
    rfl (by decide) (by decide) (by decide) (by decide) (by decide)

/-! ## C8: cache token with timeout=0 -/

/-- C8.  For a request bearing a cache token and `timeout=0`, the bundle is
indeed stored without expiry (`cache.set(..., timeout=None)`), but the
subsequent `options['cache_expires'] = now() + timedelta(seconds=None)`
raises an uncaught `TypeError`: the compilation does not complete — an
unhandled fault escapes `get_queryset`, contradicting the claim (and §7's
no-crash rule).  Only `ValidationError` is caught by the surrounding
handler (lines 286-288). -/
theorem timeout_zero_fault :
    (get_queryset (ctxAB 5) [] {} [("cache", "t"), ("timeout", "0"), ("a", "1")]).1 =
      .fault "TypeError: unsupported type for timedelta seconds component" ∧
    List.lookup (CACHE_KEY_HEAD ++ "t")
      (get_queryset (ctxAB 5) [] {} [("cache", "t"), ("timeout", "0"), ("a", "1")]).2.1 =
      some ([("timeout", "0"), ("a", "1")], none) := by
  refine ⟨by decide, by decide⟩

/-! ## C9: bracketed values compile to field references -/

/-- Python's bracket test on the assembled string. -/
theorem toQueryVal_bracket (f : String) :
    toQueryVal ("[" ++ f ++ "]") = .fref f := by
  obtain ⟨d⟩ := f
  have hdata : ("[" ++ String.mk d ++ "]").data = '[' :: (d ++ [']']) := by
    simp [String.data_append]
  rw [toQueryVal]
  rw [hdata]
  simp [List.getLast?_concat, List.dropLast_concat]

/-- C9.  A non-reserved filter parameter (no `@`/`-` prefix) whose raw
value is wrapped in brackets compiles to an include clause holding a
same-record field-reference between the two named fields — not a literal
comparison with the bracketed text; end-to-end, `start_date=[end_date]`
produces the plan filtering on `F(end_date)`. -/
theorem bracket_value_field_reference
    (k f : String) (rs : List String)
    (hk : rs.contains k = false)
    (h1 : startsWithChar k '@' = false)
    (h2 : startsWithChar k '-' = false) :
    buildFilters rs [(k, "[" ++ f ++ "]")] = ([(k, .fref f)], []) ∧
    (∃ o, (get_queryset ctxSD [] {} [("start_date", "[end_date]")]).1 =
      .plan (.filter [("start_date", .fref "end_date")] .base) o ∧
      o.filters = some true) := by
  have hk' : k ∉ rs := by simpa using hk
  constructor
  · simp [buildFilters, toQueryVal_bracket, hk', h1, h2, url_value]
  · exact ⟨{ filters := some true }, by decide, rfl⟩

/-- Witness for C9 at the spec's example parameter. -/
theorem bracket_value_field_reference_witness :
    buildFilters (reservedParams ctxSD) [("start_date", "[" ++ "end_date" ++ "]")] =
      ([("start_date", .fref "end_date")], []) :=
  (bracket_value_field_reference "start_date" "end_date" (reservedParams ctxSD)
    (by decide) (by decide) (by decide)).1

/-! ## C10: three-valued boolean-flag parsing -/

/-- C10.  `str_to_bool` is three-valued: it returns `True` exactly when the
lowercased value is a recognized true spelling, `False` exactly for a
recognized false spelling, and `None` for everything else — including the
absent value and unrecognized strings such as `"2"`.  Consequently
`silent=2` leaves a request in strict mode: the malformed `order_by` below
still raises the tagged validation error. -/
theorem str_to_bool_three_valued :
    (∀ s : String, str_to_bool (some s) = some true ↔ strLower s ∈ TRUE_VALUES) ∧
    (∀ s : String, str_to_bool (some s) = some false ↔ strLower s ∈ FALSE_VALUES) ∧
    str_to_bool none = none ∧
    (∀ s : String, strLower s ∉ TRUE_VALUES → strLower s ∉ FALSE_VALUES →
      str_to_bool (some s) = none) ∧
    str_to_bool (some "2") = none ∧
    (get_queryset ctxNT [] {} [("order_by", "bad"), ("silent", "2")]).1 =
      .validationError "order_by" "invalid order_by field" := by
  have hdisj : ∀ x : String, x ∈ FALSE_VALUES → x ∉ TRUE_VALUES := by decide
  refine ⟨fun s => ?_, fun s => ?_, rfl, fun s h1 h2 => ?_, by decide, by decide⟩
  · constructor
    · intro h
      simp only [str_to_bool] at h
      split at h
      · exact List.elem_iff.mp (Option.some.inj h)
      · simp at h
    · intro h
      have hc : (TRUE_VALUES ++ FALSE_VALUES).contains (strLower s) = true :=
        List.elem_iff.mpr (List.mem_append_left _ h)
      have ht : TRUE_VALUES.contains (strLower s) = true := List.elem_iff.mpr h
      simp only [str_to_bool]
      rw [if_pos hc, ht]
  · constructor
    · intro h
      simp only [str_to_bool] at h
      split at h
      · rename_i hcond
        have hb := Option.some.inj h
        rcases List.mem_append.mp (List.elem_iff.mp hcond) with hT | hF
        · have hbt : TRUE_VALUES.contains (strLower s) = true := List.elem_iff.mpr hT
          rw [hbt] at hb
          simp at hb
        · exact hF
      · simp at h
    · intro h
      have hc : (TRUE_VALUES ++ FALSE_VALUES).contains (strLower s) = true :=
        List.elem_iff.mpr (List.mem_append_right _ h)
      have ht : TRUE_VALUES.contains (strLower s) = false := by
        rw [Bool.eq_false_iff]
        intro hx
        exact hdisj _ h (List.elem_iff.mp hx)
      simp only [str_to_bool]
      rw [if_pos hc, ht]
  · have hc : (TRUE_VALUES ++ FALSE_VALUES).contains (strLower s) = false := by
      rw [Bool.eq_false_iff]
      intro hx
      rcases List.mem_append.mp (List.elem_iff.mp hx) with hT | hF
      · exact h1 hT
      · exact h2 hF
    simp only [str_to_bool]
    rw [if_neg (by rw [hc]; simp)]

/-- Witness for C10: an unrecognized spelling parses to `None`. -/
theorem str_to_bool_three_valued_witness :
    str_to_bool (some "whatever") = none :=
  str_to_bool_three_valued.2.2.2.1 "whatever" (by decide) (by decide)

/-! ## C3: cache round-trip -/

/-- The first request (`cache=tok&a=1` on an empty cache) stores `{a: 1}`
under the prefixed token, expiring at `now + CACHE_TIMEOUT`. -/
theorem cacheStage_store_first (tok : String) (t1 : Int) (h0 : tok ≠ "") :
    cacheStage (ctxAB t1) [] [("cache", tok), ("a", "1")] =
      .ok [("a", "1")]
        { cache_expires := some (t1 + CACHE_TIMEOUT), cache_data := some [("a", "1")] }
        [(CACHE_KEY_HEAD ++ tok, ([("a", "1")], some (t1 + CACHE_TIMEOUT)))] := by
  simp only [cacheStage,
    show List.lookup "cache" [("cache", tok), ("a", "1")] = some tok from rfl,
    if_neg h0]
  rfl

/-- Reading the freshly stored entry before expiry returns the stored
bundle. -/
theorem cacheGet_fresh (tok : String) (t1 t2 : Int) (h2 : t2 < t1 + CACHE_TIMEOUT) :
    cacheGet [(CACHE_KEY_HEAD ++ tok, ([("a", "1")], some (t1 + CACHE_TIMEOUT)))]
      (CACHE_KEY_HEAD ++ tok) t2 = [("a", "1")] := by
  simp only [cacheGet, List.lookup, beq_self_eq_true]
  rw [if_pos h2]

/-- Reading the stored entry after its expiry instant returns the empty
bundle. -/
theorem cacheGet_expired (tok : String) (t1 t3 : Int) (h3 : t1 + CACHE_TIMEOUT ≤ t3) :
    cacheGet [(CACHE_KEY_HEAD ++ tok, ([("a", "1")], some (t1 + CACHE_TIMEOUT)))]
      (CACHE_KEY_HEAD ++ tok) t3 = [] := by
  simp only [cacheGet, List.lookup, beq_self_eq_true]
  rw [if_neg (not_lt.mpr h3)]

/-- The second request before expiry sees the merge of the stored bundle
with the incoming parameters (incoming appended after stored keys). -/
theorem cacheStage_resolve_fresh (tok : String) (t1 t2 : Int) (h0 : tok ≠ "")
    (h2 : t2 < t1 + CACHE_TIMEOUT) :
    cacheStage (ctxAB t2) [(CACHE_KEY_HEAD ++ tok, ([("a", "1")], some (t1 + CACHE_TIMEOUT)))]
      [("cache", tok), ("b", "2")] =
      .ok [("a", "1"), ("b", "2")]
        { cache_expires := some (t2 + CACHE_TIMEOUT),
          cache_data := some [("a", "1"), ("b", "2")] }
        ((CACHE_KEY_HEAD ++ tok, ([("a", "1"), ("b", "2")], some (t2 + CACHE_TIMEOUT))) ::
          [(CACHE_KEY_HEAD ++ tok, ([("a", "1")], some (t1 + CACHE_TIMEOUT)))]) := by
  simp only [cacheStage,
    show List.lookup "cache" [("cache", tok), ("b", "2")] = some tok from rfl,
    if_neg h0]
  rw [show (ctxAB t2).now = t2 from rfl]
  rw [cacheGet_fresh tok t1 t2 h2]
  rfl

/-- The second request after expiry sees only the incoming parameters. -/
theorem cacheStage_resolve_expired (tok : String) (t1 t3 : Int) (h0 : tok ≠ "")
    (h3 : t1 + CACHE_TIMEOUT ≤ t3) :
    cacheStage (ctxAB t3) [(CACHE_KEY_HEAD ++ tok, ([("a", "1")], some (t1 + CACHE_TIMEOUT)))]
      [("cache", tok), ("b", "2")] =
      .ok [("b", "2")]
        { cache_expires := some (t3 + CACHE_TIMEOUT),
          cache_data := some [("b", "2")] }
        ((CACHE_KEY_HEAD ++ tok, ([("b", "2")], some (t3 + CACHE_TIMEOUT))) ::
          [(CACHE_KEY_HEAD ++ tok, ([("a", "1")], some (t1 + CACHE_TIMEOUT)))]) := by
  simp only [cacheStage,
    show List.lookup "cache" [("cache", tok), ("b", "2")] = some tok from rfl,
    if_neg h0]
  rw [show (ctxAB t3).now = t3 from rfl]
  rw [cacheGet_expired tok t1 t3 h3]
  rfl

/-- C3.  Cache round-trip: storing `{a: 1}` under any token (request
`cache=tok&a=1` at `t1`) and resolving the token with incoming `{b: 2}`
before the ttl elapses yields the merged bundle `{a: 1, b: 2}` — incoming
wins on conflicts and the compiled plan filters on both clauses; resolving
after the ttl has elapsed yields `{b: 2}` only. -/
theorem cache_round_trip (tok : String) (t1 t2 t3 : Int)
    (h0 : tok ≠ "")
    (h2 : t2 < t1 + CACHE_TIMEOUT)
    (h3 : t1 + CACHE_TIMEOUT ≤ t3) :
    (∃ o, (get_queryset (ctxAB t2)
        (get_queryset (ctxAB t1) [] {} [("cache", tok), ("a", "1")]).2.1
        {} [("cache", tok), ("b", "2")]).1 =
      .plan (.filter [("a", .lit "1"), ("b", .lit "2")] .base) o ∧
      o.cache_data = some [("a", "1"), ("b", "2")]) ∧
    (∃ o, (get_queryset (ctxAB t3)
        (get_queryset (ctxAB t1) [] {} [("cache", tok), ("a", "1")]).2.1
        {} [("cache", tok), ("b", "2")]).1 =
      .plan (.filter [("b", .lit "2")] .base) o ∧
      o.cache_data = some [("b", "2")]) := by
  have hc1 : (get_queryset (ctxAB t1) [] {} [("cache", tok), ("a", "1")]).2.1 =
      [(CACHE_KEY_HEAD ++ tok, ([("a", "1")], some (t1 + CACHE_TIMEOUT)))] := by
    rw [get_queryset, if_neg (by simp), cacheStage_store_first tok t1 h0]
  rw [hc1]
  constructor
  · refine ⟨{ filters := some true, cache_expires := some (t2 + CACHE_TIMEOUT),
              cache_data := some [("a", "1"), ("b", "2")] }, ?_, rfl⟩
    rw [get_queryset, if_neg (by simp), cacheStage_resolve_fresh tok t1 t2 h0 h2]
    rfl
  · refine ⟨{ filters := some true, cache_expires := some (t3 + CACHE_TIMEOUT),
              cache_data := some [("b", "2")] }, ?_, rfl⟩
    rw [get_queryset, if_neg (by simp), cacheStage_resolve_expired tok t1 t3 h0 h3]
    rfl

/-- Witness for C3 at a concrete token and concrete instants. -/
theorem cache_round_trip_witness :
    (∃ o, (get_queryset (ctxAB 5)
        (get_queryset (ctxAB 0) [] {} [("cache", "tk"), ("a", "1")]).2.1
        {} [("cache", "tk"), ("b", "2")]).1 =
      .plan (.filter [("a", .lit "1"), ("b", .lit "2")] .base) o ∧
      o.cache_data = some [("a", "1"), ("b", "2")]) ∧
    (∃ o, (get_queryset (ctxAB 100000)
        (get_queryset (ctxAB 0) [] {} [("cache", "tk"), ("a", "1")]).2.1
        {} [("cache", "tk"), ("b", "2")]).1 =
      .plan (.filter [("b", .lit "2")] .base) o ∧
      o.cache_data = some [("b", "2")]) :=
  cache_round_trip "tk" 0 5 100000 (by decide) (by decide) (by decide)
